import Mathlib

/-!
Verification of the section-capture and multi-format export pipeline of the
Power-House-Dashboard application (`src/app.py`).

The Python source is shallowly embedded: the module-level capture registry
(`SECTION_FIGS`, `SECTION_CARDS`, `CURRENT_SECTION`) becomes an explicit
state record acted on by a step function; the exporters become pure
functions over that state; rasterization (an external renderer call that
may fail) is parameterised by oracles returning `Option`.
-/

namespace PowerHouse

/-- A y-value as it sits inside a captured Plotly trace, as seen by the
narrative code after pandas coercion: a finite number, a NaN-like missing
value (coerced to NaN by `pd.to_numeric(..., errors="coerce")`), or junk
that is not float-convertible at all (makes `np.asarray(..., dtype=float)`
raise, while `pd.to_numeric` still coerces it to NaN). -/
inductive YVal where
  | num (q : ℚ)
  | nan
  | junk
deriving Repr, DecidableEq

/-- Numeric coercion of one y-value, mirroring
`pd.to_numeric(pd.Series(values), errors="coerce")` applied element-wise:
finite numbers survive, NaN and junk become missing. -/
def YVal.toNum : YVal → Option ℚ
  | .num q => some q
  | .nan => none
  | .junk => none

/-- One Plotly trace as the export pipeline reads it: kind tag (`tr.type`),
display name (`tr.name`), x labels, y values, and the pie-specific
label/value arrays. -/
structure Trace where
  type : String
  name : String
  xs : List String
  ys : List YVal
  labels : List String
  values : List YVal
deriving Repr, DecidableEq

/-- A captured Plotly figure: optional layout title plus its traces. -/
structure Figure where
  title : Option String
  traces : List Trace
deriving Repr, DecidableEq

/-- One KPI card (`label`, `value`, optional `delta`, `delta_color`). -/
structure Card where
  label : String
  value : String
  delta : String
  deltaColor : String
deriving Repr, DecidableEq

/-- One captured card group (`{"cards": ..., "title": ...}` in
`capture_metric_cards`). -/
structure CardGroup where
  cards : List Card
  title : String
deriving Repr, DecidableEq

/-!
## Section capture registry (`src/app.py` lines 191-213)

`SECTION_FIGS` and `SECTION_CARDS` are `defaultdict(list)`; `CURRENT_SECTION`
is a one-slot list.  We model the two dicts as total functions (the
defaultdict default `[]` is the function's value at untouched keys) and the
slot as a string field.
-/
/-- The module-level capture state: `SECTION_FIGS`, `SECTION_CARDS`,
`CURRENT_SECTION[0]`. -/
structure Registry where
  figs : String → List Figure
  cards : String → List CardGroup
  current : String

/-- The state at process start: both dicts empty (defaultdict gives `[]`
everywhere), current section the empty string. -/
def Registry.init : Registry :=
  { figs := fun _ => [], cards := fun _ => [], current := "" }

/-- `begin_section(name)`: set the current section and reset both capture
lists of `name` (lines 195-199). -/
def beginSection (name : String) (r : Registry) : Registry :=
  { figs := Function.update r.figs name []
    cards := Function.update r.cards name []
    current := name }

/-- The effective target of a capture call: `CURRENT_SECTION[0] or "Page"`
(Python falsiness: the empty string falls back to `"Page"`). -/
def effectiveSection (r : Registry) : String :=
  if r.current = "" then "Page" else r.current

/-- `capture_fig(fig)`: append to the active section's figure list
(lines 201-203). -/
def captureFig (f : Figure) (r : Registry) : Registry :=
  let name := effectiveSection r
  { r with figs := Function.update r.figs name (r.figs name ++ [f]) }

/-- `capture_metric_cards(cards_data, section_title)`: append a card group
to the active section (lines 205-213). -/
def captureCards (g : CardGroup) (r : Registry) : Registry :=
  let name := effectiveSection r
  { r with cards := Function.update r.cards name (r.cards name ++ [g]) }

/-- One mutation of the registry, as issued by the UI layer. -/
inductive Op where
  | beginOp (name : String)
  | capFig (f : Figure)
  | capCards (g : CardGroup)

/-- Apply one mutation. -/
def stepOp (r : Registry) : Op → Registry
  | .beginOp name => beginSection name r
  | .capFig f => captureFig f r
  | .capCards g => captureCards g r

/-- Run a list of mutations left to right. -/
def runOps (r : Registry) : List Op → Registry
  | [] => r
  | o :: os => runOps (stepOp r o) os

/-- `get_charts(S)` as the exporters use it: `SECTION_FIGS.get(S, [])`. -/
def getCharts (r : Registry) (s : String) : List Figure := r.figs s

/-- `get_cards(S)`: `SECTION_CARDS.get(S, [])`. -/
def getCards (r : Registry) (s : String) : List CardGroup := r.cards s

/-!
## Paginated bitmap-grid PDF exporter (`build_section_pdf`, lines 1716-1937)

Rasterization calls `pio.to_image` (which may raise) under a chain of
try/except arms with decreasing quality presets; the produced bytes are
then opened with `ImageReader` (which may also raise, e.g. PIL
decompression-bomb protection), with one extra minimal re-render retry.
Both external calls are modelled as oracles returning `Option`.
-/
/-- One quality preset handed to `pio.to_image` (scale, width, height). -/
structure Preset where
  scale : Nat
  width : Nat
  height : Nat
deriving Repr, DecidableEq

/-- `scale=7, width=6000, height=3600` (line 1869). -/
def preset1 : Preset := ⟨7, 6000, 3600⟩

/-- `scale=6, width=5500, height=3400` (line 1872). -/
def preset2 : Preset := ⟨6, 5500, 3400⟩

/-- `scale=5, width=5000, height=3000` (line 1875). -/
def preset3 : Preset := ⟨5, 5000, 3000⟩

/-- `scale=4, width=4500, height=2800` (line 1878). -/
def preset4 : Preset := ⟨4, 4500, 2800⟩

/-- `scale=3, width=4000, height=2500` (line 1880): the innermost except
arm; this call is NOT wrapped in a further try. -/
def preset5 : Preset := ⟨3, 4000, 2500⟩

/-- `scale=1, width=1200, height=700` (line 1891): the re-render used when
`ImageReader` rejects the produced bytes. -/
def presetFallback : Preset := ⟨1, 1200, 700⟩

/-- Rasterized PNG bytes, opaque. -/
abbrev Png := Nat

/-- The `pio.to_image` presets tried for the initial rasterization, in
program order. -/
def rasterPresets : List Preset := [preset1, preset2, preset3, preset4, preset5]

/-- One collected image entry `(iw, ih, png)` (line 1885). -/
abbrev ImgEntry := Nat × Nat × Png

/-- The decode stage (lines 1881-1897): open the bytes with `ImageReader`;
on failure re-render once at the minimal preset and decode that; if the
retry also fails the chart is skipped (`continue`), yielding `none`. -/
def decodeStage (toImage : Figure → Preset → Option Png)
    (decode : Png → Option (Nat × Nat)) (fig : Figure) (png : Png) :
    Option ImgEntry :=
  match decode png with
  | some wh => some (wh.1, wh.2, png)
  | none =>
    match toImage fig presetFallback with
    | none => none
    | some png2 =>
      match decode png2 with
      | none => none
      | some wh => some (wh.1, wh.2, png2)

/-- First preset (over a preset list) whose `pio.to_image` call succeeds. -/
def firstHit (toImage : Figure → Preset → Option Png) (fig : Figure) :
    List Preset → Option Png
  | [] => none
  | p :: ps =>
    match toImage fig p with
    | some png => some png
    | none => firstHit toImage fig ps

/-- Rasterize one chart (lines 1865-1897): the nested try/except chain
over presets 1-4; the preset-5 call in the innermost arm is not guarded,
so its failure propagates out of `build_section_pdf` (`.error ()`);
a produced PNG then goes through the decode stage. -/
def rasterizeFig (toImage : Figure → Preset → Option Png)
    (decode : Png → Option (Nat × Nat)) (fig : Figure) :
    Except Unit (Option ImgEntry) :=
  match toImage fig preset1 with
  | some png => .ok (decodeStage toImage decode fig png)
  | none =>
    match toImage fig preset2 with
    | some png => .ok (decodeStage toImage decode fig png)
    | none =>
      match toImage fig preset3 with
      | some png => .ok (decodeStage toImage decode fig png)
      | none =>
        match toImage fig preset4 with
        | some png => .ok (decodeStage toImage decode fig png)
        | none =>
          match toImage fig preset5 with
          | some png => .ok (decodeStage toImage decode fig png)
          | none => .error ()

/-- Collect the `images` list over a section's figures (lines 1864-1897):
skipped charts (`.ok none`) contribute nothing, an unhandled rasterization
exception aborts the whole build. -/
def collectImages (toImage : Figure → Preset → Option Png)
    (decode : Png → Option (Nat × Nat)) : List Figure → Except Unit (List ImgEntry)
  | [] => .ok []
  | f :: fs =>
    match rasterizeFig toImage decode f with
    | .error e => .error e
    | .ok entry? =>
      match collectImages toImage decode fs with
      | .error e => .error e
      | .ok rest =>
        .ok (match entry? with
             | some entry => entry :: rest
             | none => rest)

/-- Grid shape from the count of successfully rasterized images
(lines 1899-1911), branch for branch. -/
def gridShape (n : Nat) : Nat × Nat :=
  if n = 1 then (1, 1)
  else if n = 2 ∨ n = 3 then (2, 2)
  else if n = 4 then (2, 2)
  else if n = 5 ∨ n = 6 then (3, 2)
  else if n = 7 ∨ n = 8 ∨ n = 9 then (3, 3)
  else (3, 3)

/-- The inner column loop of the placement (lines 1924-1933): place up to
`cols` images starting at position `idx`, stopping (`break`) once `idx`
reaches the image count; returns the placed images and the final `idx`. -/
def placeRow (images : List ImgEntry) (idx : Nat) : Nat → List ImgEntry × Nat
  | 0 => ([], idx)
  | c + 1 =>
    if h : idx < images.length then
      let rest := placeRow images (idx + 1) c
      (images.get ⟨idx, h⟩ :: rest.1, rest.2)
    else ([], idx)

/-- The outer row loop of the placement (lines 1920-1933). -/
def placeGrid (images : List ImgEntry) (cols : Nat) (idx : Nat) :
    Nat → List ImgEntry
  | 0 => []
  | r + 1 =>
    let rowRes := placeRow images idx cols
    rowRes.1 ++ placeGrid images cols rowRes.2 r

/-- One rendered page of `build_section_pdf`: the card groups drawn at the
top, the grid shape chosen (absent when the section captured no charts, in
which case the whole chart block is skipped by `if figs:`), and the chart
images placed into the grid. -/
structure Page where
  cardGroups : List CardGroup
  grid : Option (Nat × Nat)
  images : List ImgEntry
deriving Repr, DecidableEq

/-- `build_section_pdf` on a section's captured figure and card lists:
always draws header and cards; if there are captured figures, rasterizes
them (possibly aborting on an unhandled renderer exception), picks the
grid and places at most `cols*rows` images; always ends with one
`showPage`, i.e. exactly one page. -/
def buildSectionPdf (toImage : Figure → Preset → Option Png)
    (decode : Png → Option (Nat × Nat))
    (figs : List Figure) (cards : List CardGroup) : Except Unit Page :=
  if figs.isEmpty then
    .ok { cardGroups := cards, grid := none, images := [] }
  else
    match collectImages toImage decode figs with
    | .error e => .error e
    | .ok imgs =>
      let cr := gridShape imgs.length
      .ok { cardGroups := cards, grid := some cr
            images := placeGrid imgs cr.1 0 cr.2 }

/-- `build_section_pdf(section_name, ...)` reading from the registry. -/
def buildSectionPdfNamed (toImage : Figure → Preset → Option Png)
    (decode : Png → Option (Nat × Nat)) (r : Registry) (name : String) :
    Except Unit Page :=
  buildSectionPdf toImage decode (r.figs name) (r.cards name)

/-!
## Consolidated report (`build_report_pdf_same_style`, lines 1363-1397)
-/
/-- The fixed ordered list of sections included in the consolidated
report (Forecasting excluded). -/
def sectionOrder : List String :=
  ["Overview", "Energy Sources", "Solar Savings", "Expenses",
   "Production vs Consumption", "Gas Consumption", "Comparison"]

/-- How a consolidated export run can fail: an unhandled exception from a
per-section build propagating out, or the final
`raise RuntimeError("No charts found to export. ...")`. -/
inductive ReportError where
  | rasterAbort
  | noCharts
deriving Repr, DecidableEq

/-- The per-section loop of `build_report_pdf_same_style`: skip sections
whose captured figure list is empty, otherwise build that section's page
and append it. -/
def reportPages (toImage : Figure → Preset → Option Png)
    (decode : Png → Option (Nat × Nat)) (r : Registry) :
    List String → Except ReportError (List Page)
  | [] => .ok []
  | sec :: rest =>
    if (r.figs sec).isEmpty then reportPages toImage decode r rest
    else
      match buildSectionPdfNamed toImage decode r sec with
      | .error _ => .error .rasterAbort
      | .ok page =>
        match reportPages toImage decode r rest with
        | .error e => .error e
        | .ok ps => .ok (page :: ps)

/-- `build_report_pdf_same_style`: run the loop over the fixed section
order; if no page was ever appended, raise the "No charts found" error. -/
def buildReportPdfSameStyle (toImage : Figure → Preset → Option Png)
    (decode : Png → Option (Nat × Nat)) (r : Registry) :
    Except ReportError (List Page) :=
  match reportPages toImage decode r sectionOrder with
  | .error e => .error e
  | .ok [] => .error .noCharts
  | .ok ps => .ok ps

/-! Rasterization-chain lemmas. -/
/-- The outcome a chart contributes to the `images` list when the build
does not abort. -/
def okImage : Except Unit (Option ImgEntry) → Option ImgEntry
  | .ok o => o
  | .error _ => none

/-!
## Number formatting (`_fmt_val`, lines 930-937) and the statistical
narrative generator (`_describe_trace`, lines 974-1008)

Python float formatting is modelled with exact decimal semantics over ℚ:
`f"{v:,.0f}"` rounds half-to-even to an integer and groups digits in
thousands, `f"{v:.2f}"` rounds half-to-even at two decimals.
-/
/-- Floor of a rational, computed from its reduced numerator/denominator
(`Int.fdiv` is floor division). -/
def qfloor (q : ℚ) : ℤ := q.num.fdiv (q.den : ℤ)

/-- Round half to even at zero decimals, the decimal model of Python's
float-to-string rounding.  With `f = ⌊q⌋` and `rem = q.num - f * q.den`
(so that the fractional part of `q` is `rem / q.den`): round down when the
fraction is below one half, up when above, and to the even neighbour on an
exact half. -/
def roundHalfEven (q : ℚ) : ℤ :=
  let f := qfloor q
  let rem := q.num - f * (q.den : ℤ)
  if 2 * rem < (q.den : ℤ) then f
  else if (q.den : ℤ) < 2 * rem then f + 1
  else if f % 2 = 0 then f else f + 1

/-- Zero-pad a natural below 1000 to three digits (a non-leading
thousands group). -/
def pad3 (n : Nat) : String :=
  (if n < 10 then "00" else if n < 100 then "0" else "") ++ toString n

/-- Zero-pad a natural below 100 to two digits. -/
def pad2 (n : Nat) : String :=
  (if n < 10 then "0" else "") ++ toString n

/-- Insert a `,` after every group of three characters of a reversed
digit list. -/
def group3 : List Char → List Char
  | [] => []
  | [a] => [a]
  | [a, b] => [a, b]
  | [a, b, c] => [a, b, c]
  | a :: b :: c :: rest => a :: b :: c :: ',' :: group3 rest

/-- Decimal rendering of a natural with `,` thousands separators. -/
def commaNat (n : Nat) : String :=
  String.mk (group3 (toString n).data.reverse).reverse

/-- Absolute value of a rational, written so that it evaluates by kernel
reduction. -/
def qabs (q : ℚ) : ℚ := if q < 0 then -q else q

/-- The sign rendered by Python float formatting: negative also for a
negative value that rounds to zero. -/
def negSign (n : ℤ) (q : ℚ) : Bool := n < 0 ∨ (n = 0 ∧ q < 0)

/-- Python `f"{v:,.0f}"`: thousands separators, no decimals. -/
def fmtComma0 (q : ℚ) : String :=
  let n := roundHalfEven q
  (if negSign n q then "-" else "") ++ commaNat n.natAbs

/-- Python `f"{v:+,.0f}"`: like `fmtComma0` with an explicit plus sign. -/
def fmtPlusComma0 (q : ℚ) : String :=
  let n := roundHalfEven q
  (if negSign n q then "-" else "+") ++ commaNat n.natAbs

/-- Python `f"{v:.2f}"`: two decimals, no grouping. -/
def fmt2 (q : ℚ) : String :=
  let n := roundHalfEven (100 * q)
  (if negSign n q then "-" else "") ++
    toString (n.natAbs / 100) ++ "." ++ pad2 (n.natAbs % 100)

/-- Python `f"{v:.1f}"`: one decimal, no grouping. -/
def fmt1 (q : ℚ) : String :=
  let n := roundHalfEven (10 * q)
  (if negSign n q then "-" else "") ++
    toString (n.natAbs / 10) ++ "." ++ toString (n.natAbs % 10)

/-- `float(v).is_integer()` for an exact rational. -/
def isWholeQ (q : ℚ) : Bool := q.den = 1

/-- `_fmt_val(v, suffix)` (lines 930-937), branch for branch. -/
def fmtVal (v : Option ℚ) (suffix : String) : String :=
  match v with
  | none => "—"
  | some v =>
    if 1000 ≤ qabs v ∧ suffix ≠ "%" then fmtComma0 v ++ suffix
    else if suffix = "%" then fmt1 v ++ "%"
    else if ¬ isWholeQ v then fmt2 v ++ suffix
    else fmtComma0 v ++ suffix

/-! Series statistics over the pandas-coerced values. -/
/-- Minimum of a rational list. -/
def listMinQ : List ℚ → Option ℚ
  | [] => none
  | x :: xs =>
    match listMinQ xs with
    | none => some x
    | some m => some (min x m)

/-- Maximum of a rational list. -/
def listMaxQ : List ℚ → Option ℚ
  | [] => none
  | x :: xs =>
    match listMaxQ xs with
    | none => some x
    | some m => some (max x m)

/-- Sum of a rational list (`s.sum(skipna=True)` over the non-missing
values). -/
def listSumQ : List ℚ → ℚ
  | [] => 0
  | x :: xs => x + listSumQ xs

/-- First position holding value `v` among the non-missing entries of the
coerced series: `int(s.idxmin())`/`int(s.idxmax())` on a default
`RangeIndex` (pandas returns the first occurrence, skipping NaN). -/
def firstIdxVal : List (Option ℚ) → ℚ → Option Nat
  | [], _ => none
  | o :: s, v =>
    if o = some v then some 0 else (firstIdxVal s v).map (· + 1)

/-- The `_m(i)` helper of `_describe_trace` (line 1002): the formatted
x label at index `i`, or an em dash when the index is missing or out of
range.  `month` stands for `_month_name` (pandas date parsing plus
`strftime("%b %Y")`, an external-library behavior). -/
def monthAt (month : String → String) (xs : List String) : Option Nat → String
  | none => "—"
  | some i => if h : i < xs.length then month (xs.get ⟨i, h⟩) else "—"

/-- The display name of a trace:
`tr.name or ("Series" if ttype != "pie" else "Share")` (line 976). -/
def displayName (tr : Trace) : String :=
  if tr.name = "" then (if tr.type = "pie" then "Share" else "Series")
  else tr.name

/-- `_describe_trace` (lines 974-1008): pie branch, numeric branch, and
the neutral no-numeric-values sentence. -/
def describeTrace (month : String → String) (tr : Trace) : String :=
  let name := displayName tr
  if tr.type = "pie" then
    if tr.labels.length ≠ 0 ∧ tr.values.length ≠ 0 then
      let sVals := tr.values.map YVal.toNum
      let parts := (tr.labels.zip sVals).map fun lv =>
        match lv.2 with
        | some q => lv.1 ++ ": " ++ fmtVal (some q) ""
        | none => lv.1 ++ ": —"
      let total : Option ℚ :=
        if sVals.any (·.isSome) then some (listSumQ (sVals.filterMap id))
        else none
      let ttxt := match total with
        | some t => fmtVal (some t) ""
        | none => "—"
      name ++ " shows composition — total " ++ ttxt ++ "; " ++
        String.intercalate "; " parts
    else name ++ " shows composition data."
  else
    if tr.ys.length ≠ 0 then
      let s := tr.ys.map YVal.toNum
      if s.any (·.isSome) then
        let vals := s.filterMap id
        let mn := (listMinQ vals).getD 0
        let mx := (listMaxQ vals).getD 0
        let avg := listSumQ vals / (vals.length : ℚ)
        let ssum := listSumQ vals
        let mMin := monthAt month tr.xs (firstIdxVal s mn)
        let mMax := monthAt month tr.xs (firstIdxVal s mx)
        name ++ ": peak " ++ fmtVal (some mx) "" ++ " in " ++ mMax ++
          ", lowest " ++ fmtVal (some mn) "" ++ " in " ++ mMin ++
          ", average " ++ fmtVal (some avg) "" ++ ", total " ++
          fmtVal (some ssum) "" ++ "."
      else name ++ ": no numeric values available."
    else name ++ ": no numeric values available."

/-- The per-figure bullet block of `build_section_docx` (lines 1044-1051):
one `_describe_trace` bullet per trace, or a no-data bullet when the
figure has no traces, plus the fixed stacked-bars note. -/
def docxFigureBullets (month : String → String) (fig : Figure) : List String :=
  if fig.traces.length = 0 then
    ["• No chart data available for this figure."]
  else
    (fig.traces.map fun tr => "• " ++ describeTrace month tr) ++
      ["• Where stacked bars are shown, combined monthly totals are labeled on top for quick comparison."]

/-!
## Slide-deck exporter (`build_section_ppt_brand`, lines 1232-1259, with
`_figure_summary_points` lines 1188-1214 and the slide helpers)
-/
/-- Whether a y-value makes `np.asarray(tr.y, dtype=float)` raise. -/
def YVal.isJunk : YVal → Bool
  | .junk => true
  | _ => false

/-- The numeric history `_figure_summary_points` extracts from one trace
(lines 1197-1201): `np.asarray(tr.y, dtype=float)` raises on any
non-float-convertible entry, caught into an empty array; otherwise NaN
entries are removed by the `np.isfinite` filter. -/
def finiteYs (ys : List YVal) : List ℚ :=
  if ys.any YVal.isJunk then [] else ys.filterMap YVal.toNum

/-- The per-trace bullet of `_figure_summary_points` (lines 1202-1210):
`"{name}: latest {last:,.0f} (Δ {delta:+,.0f}); avg {mean:,.0f}, range
{mn:,.0f}–{mx:,.0f}."`, the delta taken from the last two numeric points
(0 when only one), or the insufficient-history bullet when no numeric
history survives. -/
def traceBullet (tr : Trace) : String :=
  let name := if tr.name = "" then "Series" else tr.name
  let y := finiteYs tr.ys
  if y.length ≠ 0 then
    let last := y.getD (y.length - 1) 0
    let mean := listSumQ y / (y.length : ℚ)
    let mn := (listMinQ y).getD 0
    let mx := (listMaxQ y).getD 0
    let delta := if 1 < y.length then last - y.getD (y.length - 2) 0 else 0
    name ++ ": latest " ++ fmtComma0 last ++ " (Δ " ++ fmtPlusComma0 delta ++
      "); avg " ++ fmtComma0 mean ++ ", range " ++ fmtComma0 mn ++ "–" ++
      fmtComma0 mx ++ "."
  else
    name ++ ": values shown; insufficient numeric history for stats."

/-- The bullets `_figure_summary_points` accumulates before the filler
check (lines 1190-1210): an overview bullet when the figure has a
(non-empty) title, then one bullet per trace. -/
def rawSummaryPoints (fig : Figure) : List String :=
  (match fig.title with
   | some t => if t = "" then [] else ["Overview: " ++ t]
   | none => []) ++ fig.traces.map traceBullet

/-- `_figure_summary_points(fig)` (lines 1188-1214): the accumulated
bullets, with the no-significant-variability filler appended when fewer
than two bullets were produced (lines 1212-1213). -/
def figureSummaryPoints (fig : Figure) : List String :=
  let pts := rawSummaryPoints fig
  if pts.length < 2 then
    pts ++ ["No significant variability detected; continue monitoring."]
  else pts

/-- The bullet texts actually drawn on an explanation slide
(`_ppt_add_explain_slide`, lines 1171-1186): the empty list is replaced by
a single "No data available." bullet, the list is truncated to 14 entries
(`bullets[:14]`), and each entry is rendered with a leading bullet
glyph. -/
def explainSlideBullets (bullets : List String) : List String :=
  let bs := if bullets.length = 0 then ["No data available."] else bullets
  (bs.take 14).map fun t => "• " ++ t

/-- What kind of slide was added, with the content the claims inspect. -/
inductive SlideKind where
  | titleSlide
  | graphSlide (caption : String)
  | explainSlide (caption : String) (bullets : List String)
  | conclusionSlide
deriving Repr, DecidableEq

/-- One slide of the deck: its kind and the `idx / total` footer written
by `_ppt_add_slide_number`. -/
structure Slide where
  kind : SlideKind
  idx : Nat
  total : Nat
deriving Repr, DecidableEq

/-- The loop body of `build_section_ppt_brand` (lines 1244-1256): one
graph slide and one explanation slide per figure, threading the running
`idx`, then the conclusion slide.  The caption is the figure's own title
when present, the section title otherwise (line 1245). -/
def pptSlidesAux (titleText : String) (total : Nat) :
    List Figure → Nat → List Slide
  | [], idx => [{ kind := .conclusionSlide, idx := idx, total := total }]
  | fig :: rest, idx =>
    let caption := fig.title.getD titleText
    { kind := .graphSlide caption, idx := idx, total := total } ::
      { kind := .explainSlide caption (figureSummaryPoints fig),
        idx := idx + 1, total := total } ::
      pptSlidesAux titleText total rest (idx + 2)

/-- `build_section_ppt_brand` on a section's captured figures: the total
`1 + 2*len(figs) + 1` is computed before any slide is built (line 1238),
the title slide gets index 1, and the loop starts at index 2. -/
def buildSectionPptBrand (figs : List Figure) (titleText : String) :
    List Slide :=
  let total := 1 + 2 * figs.length + 1
  { kind := .titleSlide, idx := 1, total := total } ::
    pptSlidesAux titleText total figs 2

end PowerHouse

/-- Witness oracles for the fallback chain: first two presets fail, the
third succeeds. -/
def c7ToImageThird : PowerHouse.Figure → PowerHouse.Preset → Option PowerHouse.Png :=
  fun _ p => if p = PowerHouse.preset1 ∨ p = PowerHouse.preset2 then none else some 3

/-- Witness decoder: every PNG except the marker byte 9 decodes to 40x20. -/
def c7Decode : PowerHouse.Png → Option (Nat × Nat) :=
  fun png => if png = 9 then none else some (40, 20)

/-- A chart used in the concrete rasterization scenarios. -/
def c7FigGood : PowerHouse.Figure := { title := none, traces := [] }

/-- A chart whose rasterization misbehaves in the concrete scenarios. -/
def c7FigBad : PowerHouse.Figure := { title := some "bad", traces := [] }

/-- Oracle under which the bad chart always rasterizes to undecodable
bytes (including at the minimal re-render) while the good chart is fine. -/
def c7ToImageSkip : PowerHouse.Figure → PowerHouse.Preset → Option PowerHouse.Png :=
  fun f _ => if f = c7FigBad then some 9 else some 3

/-- Oracle under which every preset fails for the bad chart only. -/
def c7ToImageAbort : PowerHouse.Figure → PowerHouse.Preset → Option PowerHouse.Png :=
  fun f _ => if f = c7FigBad then none else some 3

/-- Oracle for the C8 witness: every chart rasterizes at the first
preset. -/
def c8ToImage : PowerHouse.Figure → PowerHouse.Preset → Option PowerHouse.Png :=
  fun _ _ => some 0

/-- Decoder for the C8 witness. -/
def c8Decode : PowerHouse.Png → Option (Nat × Nat) :=
  fun _ => some (1, 1)

/-- The concrete numeric trace of the narrative round-trip test:
values [10, 50, 30] at months [Jan, Feb, Mar]. -/
def c3Trace : PowerHouse.Trace :=
  { type := "bar", name := "S", xs := ["Jan", "Feb", "Mar"],
    ys := [.num 10, .num 50, .num 30], labels := [], values := [] }

/-- A trace carrying no usable numeric data, for the C9 witness. -/
def c9Trace : PowerHouse.Trace :=
  { type := "bar", name := "", xs := [], ys := [.nan, .junk],
    labels := [], values := [] }

/-- A figure mixing a no-data trace with a numeric trace, for the C9
witness. -/
def c9Fig : PowerHouse.Figure :=
  { title := some "T", traces := [c9Trace, c3Trace] }

/-- Three captured no-trace figures, for the C2 witness (N = 3). -/
def c2Figs : List PowerHouse.Figure :=
  List.replicate 3 { title := none, traces := [] }

namespace PowerHouse

/-! Helper lemmas about the registry semantics. -/
theorem beginSection_figs_self (name : String) (r : Registry) :
    (beginSection name r).figs name = [] := by
  simp [beginSection]

theorem beginSection_cards_self (name : String) (r : Registry) :
    (beginSection name r).cards name = [] := by
  simp [beginSection]

theorem beginSection_figs_other (name s : String) (r : Registry) (h : s ≠ name) :
    (beginSection name r).figs s = r.figs s := by
  simp [beginSection, Function.update_noteq h]

theorem beginSection_cards_other (name s : String) (r : Registry) (h : s ≠ name) :
    (beginSection name r).cards s = r.cards s := by
  simp [beginSection, Function.update_noteq h]

theorem effectiveSection_congr {r₁ r₂ : Registry} (h : r₁.current = r₂.current) :
    effectiveSection r₁ = effectiveSection r₂ := by
  simp [effectiveSection, h]

/-- Two registry states that agree on a section's two lists and on the
current pointer keep agreeing on that section after any run of mutations:
the run's effect on section `S` is a function of the mutations alone. -/
theorem runOps_section_congr (S : String) (ops : List Op) :
    ∀ r₁ r₂ : Registry, r₁.current = r₂.current →
      r₁.figs S = r₂.figs S → r₁.cards S = r₂.cards S →
      (runOps r₁ ops).figs S = (runOps r₂ ops).figs S ∧
      (runOps r₁ ops).cards S = (runOps r₂ ops).cards S ∧
      (runOps r₁ ops).current = (runOps r₂ ops).current := by
  induction ops with
  | nil => intro r₁ r₂ hc hf hca; exact ⟨hf, hca, hc⟩
  | cons o os ih =>
    intro r₁ r₂ hc hf hca
    apply ih
    · cases o with
      | beginOp name => simp [stepOp, beginSection]
      | capFig f => simp [stepOp, captureFig, hc]
      | capCards g => simp [stepOp, captureCards, hc]
    · cases o with
      | beginOp name =>
        by_cases hS : S = name
        · subst hS; simp [stepOp, beginSection]
        · simp [stepOp, beginSection, Function.update_noteq hS, hf]
      | capFig f =>
        have heq := effectiveSection_congr hc
        by_cases hS : S = effectiveSection r₁
        · simp [stepOp, captureFig, ← hS, ← heq, hf]
        · have h₂ : S ≠ effectiveSection r₂ := heq ▸ hS
          simp [stepOp, captureFig,
            Function.update_noteq hS, Function.update_noteq h₂, hf]
      | capCards g => simp [stepOp, captureCards, hf]
    · cases o with
      | beginOp name =>
        by_cases hS : S = name
        · subst hS; simp [stepOp, beginSection]
        · simp [stepOp, beginSection, Function.update_noteq hS, hca]
      | capFig f => simp [stepOp, captureFig, hca]
      | capCards g =>
        have heq := effectiveSection_congr hc
        by_cases hS : S = effectiveSection r₁
        · simp [stepOp, captureCards, ← hS, ← heq, hca]
        · have h₂ : S ≠ effectiveSection r₂ := heq ▸ hS
          simp [stepOp, captureCards,
            Function.update_noteq hS, Function.update_noteq h₂, hca]

/-- Appending captures to the active nonempty section accumulates its
figure list in call order. -/
theorem runOps_capFigs (S : String) (hS : S ≠ "") (cs : List Figure) :
    ∀ r : Registry, r.current = S →
      (runOps r (cs.map Op.capFig)).figs S = r.figs S ++ cs ∧
      (runOps r (cs.map Op.capFig)).current = S := by
  induction cs with
  | nil => intro r hc; simp [runOps, hc]
  | cons c cs ih =>
    intro r hc
    have heff : effectiveSection r = S := by simp [effectiveSection, hc, hS]
    have hstep : (stepOp r (Op.capFig c)).current = S := by
      simp [stepOp, captureFig, hc]
    obtain ⟨h1, h2⟩ := ih (stepOp r (Op.capFig c)) hstep
    refine ⟨?_, h2⟩
    rw [List.map_cons, runOps, h1]
    simp [stepOp, captureFig, heff]

/-! Placement-loop lemmas. -/
theorem placeRow_eq (images : List ImgEntry) :
    ∀ (c idx : Nat), idx ≤ images.length →
      placeRow images idx c =
        ((images.drop idx).take c, min (idx + c) images.length) := by
  intro c
  induction c with
  | zero =>
    intro idx h
    simp [placeRow, Nat.min_eq_left h]
  | succ c ih =>
    intro idx h
    by_cases hlt : idx < images.length
    · have hdrop := List.drop_eq_getElem_cons hlt
      rw [placeRow, dif_pos hlt, ih (idx + 1) hlt]
      refine Prod.ext ?_ ?_
      · rw [hdrop, List.take_succ_cons, List.get_eq_getElem]
      · show min (idx + 1 + c) images.length = min (idx + (c + 1)) images.length
        omega
    · have hidx : idx = images.length := by omega
      subst hidx
      rw [placeRow, dif_neg hlt]
      refine Prod.ext ?_ ?_
      · rw [List.drop_length, List.take_nil]
      · show images.length = min (images.length + (c + 1)) images.length
        omega

theorem placeGrid_eq (images : List ImgEntry) (cols : Nat) :
    ∀ (r idx : Nat), idx ≤ images.length →
      placeGrid images cols idx r = (images.drop idx).take (cols * r) := by
  intro r
  induction r with
  | zero => intro idx h; simp [placeGrid]
  | succ r ih =>
    intro idx h
    rw [placeGrid, placeRow_eq images cols idx h]
    have hmin : min (idx + cols) images.length ≤ images.length :=
      Nat.min_le_right _ _
    rw [ih _ hmin]
    have hdropmin : images.drop (min (idx + cols) images.length) =
        images.drop (idx + cols) := by
      by_cases hc : idx + cols ≤ images.length
      · rw [Nat.min_eq_left hc]
      · rw [Nat.min_eq_right (by omega), List.drop_length,
          List.drop_eq_nil_of_le (by omega)]
    rw [hdropmin]
    have hsplit : cols * (r + 1) = cols + cols * r := by ring
    rw [hsplit, List.take_add, List.drop_drop]

theorem rasterizeFig_eq_firstHit (toImage : Figure → Preset → Option Png)
    (decode : Png → Option (Nat × Nat)) (fig : Figure) :
    rasterizeFig toImage decode fig =
      match firstHit toImage fig rasterPresets with
      | some png => .ok (decodeStage toImage decode fig png)
      | none => .error () := by
  unfold rasterizeFig rasterPresets
  cases h1 : toImage fig preset1 with
  | some png => simp [firstHit, h1]
  | none =>
    cases h2 : toImage fig preset2 with
    | some png => simp [firstHit, h1, h2]
    | none =>
      cases h3 : toImage fig preset3 with
      | some png => simp [firstHit, h1, h2, h3]
      | none =>
        cases h4 : toImage fig preset4 with
        | some png => simp [firstHit, h1, h2, h3, h4]
        | none =>
          cases h5 : toImage fig preset5 with
          | some png => simp [firstHit, h1, h2, h3, h4, h5]
          | none => simp [firstHit, h1, h2, h3, h4, h5]

theorem firstHit_of_first_success (toImage : Figure → Preset → Option Png)
    (fig : Figure) :
    ∀ (ps : List Preset) (i : Nat) (hi : i < ps.length) (png : Png),
      (∀ j (hj : j < i), toImage fig (ps.get ⟨j, hj.trans hi⟩) = none) →
      toImage fig (ps.get ⟨i, hi⟩) = some png →
      firstHit toImage fig ps = some png := by
  intro ps
  induction ps with
  | nil => intro i hi; simp at hi
  | cons p ps ih =>
    intro i hi png hfail hsucc
    cases i with
    | zero =>
      simp only [List.get] at hsucc
      simp [firstHit, hsucc]
    | succ i =>
      have hp : toImage fig p = none := hfail 0 (Nat.succ_pos i)
      simp only [firstHit, hp]
      exact ih i (Nat.lt_of_succ_lt_succ hi) png
        (fun j hj => hfail (j + 1) (Nat.succ_lt_succ hj)) hsucc

theorem firstHit_none (toImage : Figure → Preset → Option Png) (fig : Figure) :
    ∀ ps : List Preset, (∀ p ∈ ps, toImage fig p = none) →
      firstHit toImage fig ps = none := by
  intro ps
  induction ps with
  | nil => intro _; rfl
  | cons p ps ih =>
    intro h
    simp only [firstHit, h p (List.mem_cons_self p ps)]
    exact ih fun q hq => h q (List.mem_cons_of_mem p hq)

theorem rasterizeFig_error_of_all_fail (toImage : Figure → Preset → Option Png)
    (decode : Png → Option (Nat × Nat)) (fig : Figure)
    (h : ∀ p ∈ rasterPresets, toImage fig p = none) :
    rasterizeFig toImage decode fig = .error () := by
  rw [rasterizeFig_eq_firstHit, firstHit_none toImage fig rasterPresets h]

theorem rasterizeFig_ne_error_of_first (toImage : Figure → Preset → Option Png)
    (decode : Png → Option (Nat × Nat)) (fig : Figure)
    (h : toImage fig preset1 ≠ none) :
    rasterizeFig toImage decode fig ≠ .error () := by
  unfold rasterizeFig
  cases hp : toImage fig preset1 with
  | some png => simp
  | none => exact absurd hp h

theorem collectImages_ok (toImage : Figure → Preset → Option Png)
    (decode : Png → Option (Nat × Nat)) :
    ∀ figs : List Figure,
      (∀ f ∈ figs, rasterizeFig toImage decode f ≠ .error ()) →
      collectImages toImage decode figs =
        .ok (figs.filterMap fun f => okImage (rasterizeFig toImage decode f)) := by
  intro figs
  induction figs with
  | nil => intro _; rfl
  | cons f fs ih =>
    intro h
    have hne := h f (List.mem_cons_self f fs)
    have hrest := ih fun g hg => h g (List.mem_cons_of_mem f hg)
    cases hr : rasterizeFig toImage decode f with
    | error e => exact absurd (hr.trans (by rfl)) hne
    | ok entry? =>
      cases entry? with
      | some entry => simp [collectImages, hr, hrest, okImage, List.filterMap_cons]
      | none => simp [collectImages, hr, hrest, okImage, List.filterMap_cons]

theorem collectImages_error (toImage : Figure → Preset → Option Png)
    (decode : Png → Option (Nat × Nat)) :
    ∀ (figs : List Figure) (fig : Figure), fig ∈ figs →
      rasterizeFig toImage decode fig = .error () →
      collectImages toImage decode figs = .error () := by
  intro figs
  induction figs with
  | nil => intro fig h; simp at h
  | cons f fs ih =>
    intro fig hmem he
    rcases List.mem_cons.mp hmem with hf | hf
    · subst hf; simp [collectImages, he]
    · cases hr : rasterizeFig toImage decode f with
      | error e => simp [collectImages, hr]
      | ok entry? => simp [collectImages, hr, ih fig hf he]

theorem buildSectionPdf_ok_of_no_abort (toImage : Figure → Preset → Option Png)
    (decode : Png → Option (Nat × Nat)) (figs : List Figure)
    (cards : List CardGroup)
    (h : ∀ f ∈ figs, rasterizeFig toImage decode f ≠ .error ()) :
    ∃ page, buildSectionPdf toImage decode figs cards = .ok page := by
  unfold buildSectionPdf
  by_cases hemp : figs.isEmpty
  · rw [if_pos hemp]
    exact ⟨_, rfl⟩
  · rw [if_neg hemp, collectImages_ok toImage decode figs h]
    exact ⟨_, rfl⟩

theorem qabs_eq_abs (q : ℚ) : qabs q = |q| := by
  unfold qabs
  by_cases h : q < 0
  · rw [if_pos h, abs_of_neg h]
  · rw [if_neg h, abs_of_nonneg (not_lt.mp h)]

/-! Specifications of the series-statistics helpers. -/
theorem listMaxQ_eq_none : ∀ l : List ℚ, listMaxQ l = none ↔ l = [] := by
  intro l
  cases l with
  | nil => simp [listMaxQ]
  | cons x xs =>
    simp only [listMaxQ]
    cases listMaxQ xs <;> simp

theorem listMinQ_eq_none : ∀ l : List ℚ, listMinQ l = none ↔ l = [] := by
  intro l
  cases l with
  | nil => simp [listMinQ]
  | cons x xs =>
    simp only [listMinQ]
    cases listMinQ xs <;> simp

/-- A value returned by `listMaxQ` is a member of the list and an upper
bound of it. -/
theorem listMaxQ_mem_le : ∀ (l : List ℚ) (m : ℚ), listMaxQ l = some m →
    m ∈ l ∧ ∀ v ∈ l, v ≤ m := by
  intro l
  induction l with
  | nil => intro m h; exact absurd h (by simp [listMaxQ])
  | cons x xs ih =>
    intro m h
    simp only [listMaxQ] at h
    cases hxs : listMaxQ xs with
    | none =>
      rw [hxs] at h
      have hx : m = x := (Option.some_injective _ h).symm
      have hnil : xs = [] := (listMaxQ_eq_none xs).mp hxs
      subst hnil
      rw [hx]
      exact ⟨List.mem_singleton_self x,
        by intro v hv; rw [List.mem_singleton.mp hv]⟩
    | some m2 =>
      rw [hxs] at h
      have hx : m = max x m2 := (Option.some_injective _ h).symm
      obtain ⟨hmem, hub⟩ := ih m2 hxs
      subst hx
      constructor
      · rcases max_choice x m2 with hc | hc
        · rw [hc]; exact List.mem_cons_self x xs
        · rw [hc]; exact List.mem_cons_of_mem x hmem
      · intro v hv
        rcases List.mem_cons.mp hv with hv | hv
        · rw [hv]; exact le_max_left x m2
        · exact le_trans (hub v hv) (le_max_right x m2)

/-- A value returned by `listMinQ` is a member of the list and a lower
bound of it. -/
theorem listMinQ_mem_le : ∀ (l : List ℚ) (m : ℚ), listMinQ l = some m →
    m ∈ l ∧ ∀ v ∈ l, m ≤ v := by
  intro l
  induction l with
  | nil => intro m h; exact absurd h (by simp [listMinQ])
  | cons x xs ih =>
    intro m h
    simp only [listMinQ] at h
    cases hxs : listMinQ xs with
    | none =>
      rw [hxs] at h
      have hx : m = x := (Option.some_injective _ h).symm
      have hnil : xs = [] := (listMinQ_eq_none xs).mp hxs
      subst hnil
      rw [hx]
      exact ⟨List.mem_singleton_self x,
        by intro v hv; rw [List.mem_singleton.mp hv]⟩
    | some m2 =>
      rw [hxs] at h
      have hx : m = min x m2 := (Option.some_injective _ h).symm
      obtain ⟨hmem, hlb⟩ := ih m2 hxs
      subst hx
      constructor
      · rcases min_choice x m2 with hc | hc
        · rw [hc]; exact List.mem_cons_self x xs
        · rw [hc]; exact List.mem_cons_of_mem x hmem
      · intro v hv
        rcases List.mem_cons.mp hv with hv | hv
        · rw [hv]; exact min_le_left x m2
        · exact le_trans (min_le_right x m2) (hlb v hv)

theorem listMaxQ_isSome (l : List ℚ) (h : l ≠ []) : ∃ m, listMaxQ l = some m := by
  cases hl : listMaxQ l with
  | none => exact absurd ((listMaxQ_eq_none l).mp hl) h
  | some m => exact ⟨m, rfl⟩

theorem listMinQ_isSome (l : List ℚ) (h : l ≠ []) : ∃ m, listMinQ l = some m := by
  cases hl : listMinQ l with
  | none => exact absurd ((listMinQ_eq_none l).mp hl) h
  | some m => exact ⟨m, rfl⟩

/-- `firstIdxVal` returns the first position of the value in the coerced
series: the entry there is `some v` and no earlier entry is. -/
theorem firstIdxVal_spec :
    ∀ (s : List (Option ℚ)) (v : ℚ) (i : Nat), firstIdxVal s v = some i →
      ∃ h : i < s.length, s.get ⟨i, h⟩ = some v ∧
        ∀ j (hj : j < i), s.get ⟨j, Nat.lt_trans hj h⟩ ≠ some v := by
  intro s
  induction s with
  | nil => intro v i h; exact absurd h (by simp [firstIdxVal])
  | cons o s ih =>
    intro v i h
    simp only [firstIdxVal] at h
    by_cases ho : o = some v
    · rw [if_pos ho] at h
      have hi : i = 0 := (Option.some_injective _ h).symm
      subst hi
      exact ⟨Nat.succ_pos _, ho, fun j hj => absurd hj (Nat.not_lt_zero j)⟩
    · rw [if_neg ho] at h
      obtain ⟨i2, hi2, hplus⟩ := Option.map_eq_some'.mp h
      obtain ⟨h2, hget, hmin⟩ := ih v i2 hi2
      subst hplus
      refine ⟨Nat.succ_lt_succ h2, hget, ?_⟩
      intro j hj
      cases j with
      | zero => exact ho
      | succ j2 => exact hmin j2 (Nat.lt_of_succ_lt_succ hj)

/-! Branch behavior of `_fmt_val` on plain values (empty suffix). -/
theorem fmtVal_ge_1000 (v : ℚ) (h : 1000 ≤ |v|) :
    fmtVal (some v) "" = fmtComma0 v := by
  simp only [fmtVal]
  rw [if_pos ⟨by rw [qabs_eq_abs]; exact h, by decide⟩, String.append_empty]

theorem fmtVal_small_whole (v : ℚ) (h1 : |v| < 1000) (h2 : isWholeQ v = true) :
    fmtVal (some v) "" = fmtComma0 v := by
  simp only [fmtVal]
  rw [if_neg (fun hc => absurd (qabs_eq_abs v ▸ hc.1) (not_le.mpr h1)),
    if_neg (by decide), if_neg (by simp [h2]), String.append_empty]

theorem fmtVal_small_frac (v : ℚ) (h1 : |v| < 1000) (h2 : isWholeQ v = false) :
    fmtVal (some v) "" = fmt2 v := by
  simp only [fmtVal]
  rw [if_neg (fun hc => absurd (qabs_eq_abs v ▸ hc.1) (not_le.mpr h1)),
    if_neg (by decide), if_pos (by simp [h2]), String.append_empty]

/-- The numeric branch of `_describe_trace`, with the printed peak/lowest
characterized as the maximum/minimum of the non-missing values, printed at
the first index attaining them, and average/total computed over the
non-missing values. -/
theorem describeTrace_numeric (month : String → String) (tr : Trace)
    (hpie : tr.type ≠ "pie") (mx mn : ℚ)
    (hmxmem : mx ∈ (tr.ys.map YVal.toNum).filterMap id)
    (hmxub : ∀ v ∈ (tr.ys.map YVal.toNum).filterMap id, v ≤ mx)
    (hmnmem : mn ∈ (tr.ys.map YVal.toNum).filterMap id)
    (hmnlb : ∀ v ∈ (tr.ys.map YVal.toNum).filterMap id, mn ≤ v) :
    describeTrace month tr =
      displayName tr ++ ": peak " ++ fmtVal (some mx) "" ++ " in " ++
        monthAt month tr.xs (firstIdxVal (tr.ys.map YVal.toNum) mx) ++
        ", lowest " ++ fmtVal (some mn) "" ++ " in " ++
        monthAt month tr.xs (firstIdxVal (tr.ys.map YVal.toNum) mn) ++
        ", average " ++
        fmtVal (some (listSumQ ((tr.ys.map YVal.toNum).filterMap id) /
          ((((tr.ys.map YVal.toNum).filterMap id).length : ℚ)))) "" ++
        ", total " ++
        fmtVal (some (listSumQ ((tr.ys.map YVal.toNum).filterMap id))) "" ++
        "." := by
  have hvals : ((tr.ys.map YVal.toNum).filterMap id) ≠ [] := by
    intro h
    rw [h] at hmxmem
    exact List.not_mem_nil mx hmxmem
  have hsome : some mx ∈ tr.ys.map YVal.toNum := by
    rcases List.mem_filterMap.mp hmxmem with ⟨a, ha, hav⟩
    have : a = some mx := hav
    rwa [this] at ha
  have hys : tr.ys.length ≠ 0 := by
    intro h0
    rw [List.length_eq_zero.mp h0] at hsome
    simp at hsome
  have hany : (tr.ys.map YVal.toNum).any (·.isSome) = true := by
    rw [List.any_eq_true]
    exact ⟨some mx, hsome, rfl⟩
  obtain ⟨m, hm⟩ := listMaxQ_isSome _ hvals
  obtain ⟨hmmem, hmub⟩ := listMaxQ_mem_le _ m hm
  have hmeq : m = mx := le_antisymm (hmxub m hmmem) (hmub mx hmxmem)
  obtain ⟨m2, hm2⟩ := listMinQ_isSome _ hvals
  obtain ⟨hm2mem, hm2lb⟩ := listMinQ_mem_le _ m2 hm2
  have hm2eq : m2 = mn := le_antisymm (hm2lb mn hmnmem) (hmnlb m2 hm2mem)
  simp only [describeTrace]
  rw [if_neg hpie, if_pos hys, if_pos hany, hm, hm2, hmeq, hm2eq]
  rfl

/-! Structural lemmas about the slide loop. -/
theorem pptSlidesAux_length (titleText : String) (total : Nat) :
    ∀ (figs : List Figure) (idx : Nat),
      (pptSlidesAux titleText total figs idx).length = 2 * figs.length + 1 := by
  intro figs
  induction figs with
  | nil => intro idx; rfl
  | cons fig rest ih =>
    intro idx
    simp only [pptSlidesAux, List.length_cons, ih]
    omega

theorem pptSlidesAux_get (titleText : String) (total : Nat) :
    ∀ (figs : List Figure) (idx : Nat) (i : Nat)
      (h : i < (pptSlidesAux titleText total figs idx).length),
      ((pptSlidesAux titleText total figs idx).get ⟨i, h⟩).idx = idx + i ∧
      ((pptSlidesAux titleText total figs idx).get ⟨i, h⟩).total = total := by
  intro figs
  induction figs with
  | nil =>
    intro idx i h
    simp only [pptSlidesAux, List.length_singleton] at h
    interval_cases i
    exact ⟨rfl, rfl⟩
  | cons fig rest ih =>
    intro idx i h
    match i with
    | 0 => exact ⟨rfl, rfl⟩
    | 1 => exact ⟨rfl, rfl⟩
    | Nat.succ (Nat.succ j) =>
      have hj : j < (pptSlidesAux titleText total rest (idx + 2)).length := by
        simp only [pptSlidesAux, List.length_cons] at h
        omega
      have hres := ih (idx + 2) j hj
      have hstep : (pptSlidesAux titleText total (fig :: rest) idx).get
          ⟨Nat.succ (Nat.succ j), h⟩ =
          (pptSlidesAux titleText total rest (idx + 2)).get ⟨j, hj⟩ := rfl
      constructor
      · rw [hstep, hres.1]
        omega
      · rw [hstep]
        exact hres.2

theorem pptSlidesAux_graph_explain (titleText : String) (total : Nat) :
    ∀ (figs : List Figure) (idx : Nat) (k : Nat) (hk : k < figs.length)
      (h1 : 2 * k < (pptSlidesAux titleText total figs idx).length)
      (h2 : 2 * k + 1 < (pptSlidesAux titleText total figs idx).length),
      ((pptSlidesAux titleText total figs idx).get ⟨2 * k, h1⟩).kind =
        .graphSlide ((figs.get ⟨k, hk⟩).title.getD titleText) ∧
      ((pptSlidesAux titleText total figs idx).get ⟨2 * k + 1, h2⟩).kind =
        .explainSlide ((figs.get ⟨k, hk⟩).title.getD titleText)
          (figureSummaryPoints (figs.get ⟨k, hk⟩)) := by
  intro figs
  induction figs with
  | nil => intro idx k hk; exact absurd hk (Nat.not_lt_zero k)
  | cons fig rest ih =>
    intro idx k hk h1 h2
    match k with
    | 0 => exact ⟨rfl, rfl⟩
    | Nat.succ j =>
      have hj : j < rest.length := Nat.lt_of_succ_lt_succ hk
      have hh1 : 2 * j < (pptSlidesAux titleText total rest (idx + 2)).length := by
        rw [pptSlidesAux_length]
        omega
      have hh2 : 2 * j + 1 <
          (pptSlidesAux titleText total rest (idx + 2)).length := by
        rw [pptSlidesAux_length]
        omega
      have := ih (idx + 2) j hj hh1 hh2
      have e1 : 2 * (j + 1) = (2 * j) + 1 + 1 := by omega
      have e2 : 2 * (j + 1) + 1 = (2 * j + 1) + 1 + 1 := by omega
      constructor
      · conv in 2 * (j + 1) => rw [e1]
        exact this.1
      · conv in 2 * (j + 1) + 1 => rw [e2]
        exact this.2

theorem getLast?_cons_of_ne_nil {α : Type} (a : α) (l : List α) (h : l ≠ []) :
    (a :: l).getLast? = l.getLast? := by
  cases l with
  | nil => exact absurd rfl h
  | cons b t => rw [List.getLast?_cons_cons]

theorem pptSlidesAux_last (titleText : String) (total : Nat) :
    ∀ (figs : List Figure) (idx : Nat),
      (pptSlidesAux titleText total figs idx).getLast? =
        some { kind := .conclusionSlide, idx := idx + 2 * figs.length,
               total := total } := by
  intro figs
  induction figs with
  | nil => intro idx; rfl
  | cons fig rest ih =>
    intro idx
    have hne : pptSlidesAux titleText total rest (idx + 2) ≠ [] := by
      intro hcon
      have := pptSlidesAux_length titleText total rest (idx + 2)
      rw [hcon] at this
      simp at this
    simp only [pptSlidesAux]
    rw [List.getLast?_cons_cons, getLast?_cons_of_ne_nil _ _ hne, ih (idx + 2)]
    have harith : idx + 2 + 2 * rest.length = idx + 2 * (fig :: rest).length := by
      simp only [List.length_cons]
      ring
    rw [harith]

theorem getD_append_pair (pre : List ℚ) (a b : ℚ) :
    (pre ++ [a, b]).getD (pre.length + 1) 0 = b ∧
    (pre ++ [a, b]).getD pre.length 0 = a := by
  induction pre with
  | nil => exact ⟨rfl, rfl⟩
  | cons x pre ih =>
    simp only [List.cons_append, List.length_cons, List.getD_cons_succ]
    exact ih

end PowerHouse

/-- C1: in `build_section_pdf`, for a section with captured charts whose
successfully rasterized images number `n`, the grid is 1x1 for `n=1`,
2x2 for `n` in 2..4, 3x2 for `n` in 5..6, 3x3 for `n` in 7..9 and also for
`n>9` — in which case only the first nine images are placed (the rest are
dropped, not paginated) — and the number of placed images never exceeds
columns times rows. -/
theorem claim_C1_grid_packing
    (toImage : PowerHouse.Figure → PowerHouse.Preset → Option PowerHouse.Png)
    (decode : PowerHouse.Png → Option (Nat × Nat))
    (figs : List PowerHouse.Figure) (cards : List PowerHouse.CardGroup)
    (imgs : List PowerHouse.ImgEntry) (page : PowerHouse.Page)
    (hne : figs.isEmpty = false)
    (hcol : PowerHouse.collectImages toImage decode figs = .ok imgs)
    (hbuild : PowerHouse.buildSectionPdf toImage decode figs cards = .ok page) :
    (imgs.length = 1 → page.grid = some (1, 1)) ∧
    (2 ≤ imgs.length ∧ imgs.length ≤ 4 → page.grid = some (2, 2)) ∧
    (5 ≤ imgs.length ∧ imgs.length ≤ 6 → page.grid = some (3, 2)) ∧
    (7 ≤ imgs.length → page.grid = some (3, 3)) ∧
    (9 < imgs.length → page.images = imgs.take 9) ∧
    (∀ c r, page.grid = some (c, r) → page.images.length ≤ c * r) := by
  unfold PowerHouse.buildSectionPdf at hbuild
  rw [hne] at hbuild
  simp only [Bool.false_eq_true, if_false, hcol] at hbuild
  have hpage := (Except.ok.injEq _ _).mp hbuild
  have hgrid : page.grid = some (PowerHouse.gridShape imgs.length) := by
    rw [← hpage]
  have himgs : page.images = imgs.take
      ((PowerHouse.gridShape imgs.length).1 *
        (PowerHouse.gridShape imgs.length).2) := by
    rw [← hpage]
    show PowerHouse.placeGrid imgs _ 0 _ = _
    rw [PowerHouse.placeGrid_eq imgs _ _ 0 (Nat.zero_le _), List.drop_zero]
  refine ⟨?_, ?_, ?_, ?_, ?_, ?_⟩
  · intro h1
    rw [hgrid, h1]
    decide
  · rintro ⟨h2, h4⟩
    rw [hgrid]
    have hg : PowerHouse.gridShape imgs.length = (2, 2) := by
      unfold PowerHouse.gridShape
      rw [if_neg (by omega)]
      by_cases h23 : imgs.length = 2 ∨ imgs.length = 3
      · rw [if_pos h23]
      · rw [if_neg h23, if_pos (by omega)]
    rw [hg]
  · rintro ⟨h5, h6⟩
    rw [hgrid]
    have hg : PowerHouse.gridShape imgs.length = (3, 2) := by
      unfold PowerHouse.gridShape
      rw [if_neg (by omega), if_neg (by omega), if_neg (by omega),
        if_pos (by omega)]
    rw [hg]
  · intro h7
    rw [hgrid]
    have hg : PowerHouse.gridShape imgs.length = (3, 3) := by
      unfold PowerHouse.gridShape
      rw [if_neg (by omega), if_neg (by omega), if_neg (by omega),
        if_neg (by omega)]
      split <;> rfl
    rw [hg]
  · intro h9
    have hg : PowerHouse.gridShape imgs.length = (3, 3) := by
      unfold PowerHouse.gridShape
      rw [if_neg (by omega), if_neg (by omega), if_neg (by omega),
        if_neg (by omega)]
      split <;> rfl
    rw [himgs, hg]
    norm_num
  · intro c r hcr
    rw [hgrid] at hcr
    have hcrv : PowerHouse.gridShape imgs.length = (c, r) :=
      Option.some_injective _ hcr
    rw [himgs, hcrv]
    simp [List.length_take]

/-- C1 witness: ten charts that all rasterize at the first preset yield a
3x3 grid with exactly the first nine images placed. -/
theorem claim_C1_grid_packing_witness :
    ∃ page, PowerHouse.buildSectionPdf (fun _ _ => some 1) (fun p => some (p, p))
        (List.replicate 10 { title := none, traces := [] }) [] = .ok page ∧
      page.grid = some (3, 3) ∧ page.images.length = 9 := by
  have h := claim_C1_grid_packing (fun _ _ => some 1) (fun p => some (p, p))
    (List.replicate 10 { title := none, traces := [] }) []
    (List.replicate 10 (1, 1, 1)) _ (by decide) rfl rfl
  refine ⟨_, rfl, ?_, ?_⟩
  · exact h.2.2.2.1 (by decide)
  · rw [h.2.2.2.2.1 (by decide)]
    decide

/-- C4: beginning a section again clears both its chart list and its
card-group list together before any new captures are recorded, so nothing
from an earlier render pass survives: immediately after `begin(S)` both
lists of `S` are empty, and after any further mutations the contents of
`S`'s two lists are independent of the registry state that preceded the
`begin(S)` call (in particular an exporter can never see a chart of one
pass mixed with a card group of another). -/
theorem claim_C4_begin_clears_both_lists
    (S : String) (r₁ r₂ : PowerHouse.Registry) (ops : List PowerHouse.Op) :
    (PowerHouse.beginSection S r₁).figs S = [] ∧
    (PowerHouse.beginSection S r₁).cards S = [] ∧
    (PowerHouse.runOps (PowerHouse.beginSection S r₁) ops).figs S =
      (PowerHouse.runOps (PowerHouse.beginSection S r₂) ops).figs S ∧
    (PowerHouse.runOps (PowerHouse.beginSection S r₁) ops).cards S =
      (PowerHouse.runOps (PowerHouse.beginSection S r₂) ops).cards S := by
  refine ⟨PowerHouse.beginSection_figs_self S r₁,
    PowerHouse.beginSection_cards_self S r₁, ?_⟩
  have h := PowerHouse.runOps_section_congr S ops
    (PowerHouse.beginSection S r₁) (PowerHouse.beginSection S r₂)
    (by simp [PowerHouse.beginSection])
    (by simp [PowerHouse.beginSection])
    (by simp [PowerHouse.beginSection])
  exact ⟨h.1, h.2.1⟩

/-- C10: for distinct section names `A ≠ B`, `begin(B)` leaves `A`'s chart
list and card-group list untouched, resets only `B`'s two lists, and
repoints the current-section slot to `B`. -/
theorem claim_C10_begin_frames_other_sections
    (A B : String) (r : PowerHouse.Registry) (hAB : A ≠ B) :
    (PowerHouse.beginSection B r).figs A = r.figs A ∧
    (PowerHouse.beginSection B r).cards A = r.cards A ∧
    (PowerHouse.beginSection B r).figs B = [] ∧
    (PowerHouse.beginSection B r).cards B = [] ∧
    (PowerHouse.beginSection B r).current = B := by
  refine ⟨PowerHouse.beginSection_figs_other B A r hAB,
    PowerHouse.beginSection_cards_other B A r hAB,
    PowerHouse.beginSection_figs_self B r,
    PowerHouse.beginSection_cards_self B r, rfl⟩

/-- C10 witness at a concrete pair of distinct sections. -/
theorem claim_C10_begin_frames_other_sections_witness :
    (PowerHouse.beginSection "Expenses" PowerHouse.Registry.init).figs "Overview" =
      PowerHouse.Registry.init.figs "Overview" ∧
    (PowerHouse.beginSection "Expenses" PowerHouse.Registry.init).cards "Overview" =
      PowerHouse.Registry.init.cards "Overview" ∧
    (PowerHouse.beginSection "Expenses" PowerHouse.Registry.init).figs "Expenses" = [] ∧
    (PowerHouse.beginSection "Expenses" PowerHouse.Registry.init).cards "Expenses" = [] ∧
    (PowerHouse.beginSection "Expenses" PowerHouse.Registry.init).current = "Expenses" :=
  claim_C10_begin_frames_other_sections "Overview" "Expenses"
    PowerHouse.Registry.init (by decide)

/-- C5 (amended): for every nonempty section name `S`, `begin(S)` followed
by `N` `capture_chart` calls (with `S` still the active section throughout,
which `begin` guarantees) leaves `S`'s chart list holding exactly those `N`
charts in call order. -/
theorem claim_C5_captures_in_order
    (S : String) (hS : S ≠ "") (r : PowerHouse.Registry) (cs : List PowerHouse.Figure) :
    (PowerHouse.runOps (PowerHouse.beginSection S r)
        (cs.map PowerHouse.Op.capFig)).figs S = cs := by
  have h := PowerHouse.runOps_capFigs S hS cs (PowerHouse.beginSection S r) rfl
  rw [h.1, PowerHouse.beginSection_figs_self]
  simp

/-- C5 witness: three captures into a concrete section land in order. -/
theorem claim_C5_captures_in_order_witness :
    "Overview" ≠ "" ∧
    (PowerHouse.runOps (PowerHouse.beginSection "Overview" PowerHouse.Registry.init)
        ([{ title := some "A", traces := [] },
          { title := some "B", traces := [] },
          { title := none, traces := [] }].map PowerHouse.Op.capFig)).figs "Overview" =
      [{ title := some "A", traces := [] },
       { title := some "B", traces := [] },
       { title := none, traces := [] }] :=
  ⟨by decide, claim_C5_captures_in_order "Overview" (by decide)
    PowerHouse.Registry.init _⟩

/-- C5 counterexample: the claim as stated quantifies over every section
name, but for the empty-string section name the capture call falls back to
the `"Page"` bucket (`CURRENT_SECTION[0] or "Page"` treats `""` as
missing), so after `begin("")` and one capture the chart list of `""` is
empty, not the one-element list the claim demands. -/
theorem claim_C5_captures_in_order_counterexample :
    (PowerHouse.runOps (PowerHouse.beginSection "" PowerHouse.Registry.init)
        ([({ title := none, traces := [] } : PowerHouse.Figure)].map
          PowerHouse.Op.capFig)).figs "" ≠
      [({ title := none, traces := [] } : PowerHouse.Figure)] := by
  intro h
  have : (PowerHouse.runOps (PowerHouse.beginSection "" PowerHouse.Registry.init)
      ([({ title := none, traces := [] } : PowerHouse.Figure)].map
        PowerHouse.Op.capFig)).figs "" = [] := by
    simp [PowerHouse.runOps, PowerHouse.stepOp, PowerHouse.captureFig,
      PowerHouse.effectiveSection, PowerHouse.beginSection,
      PowerHouse.Registry.init, Function.update]
  rw [this] at h
  exact List.noConfusion h

/-- C7 (amended): per chart, rasterization tries the quality presets in
order, moving to the next one exactly when the current call fails, and the
page embeds the image from the first succeeding preset; a chart is skipped
alone — with the page still produced from the remaining charts — when its
produced bytes cannot be decoded and the minimal re-render retry also
fails; but if every `pio.to_image` preset fails, including the final
scale-3 one (whose call sits in the innermost except arm without a further
guard), the exception propagates and the whole page build aborts. -/
theorem claim_C7_raster_fallback_chain :
    (∀ (toImage : PowerHouse.Figure → PowerHouse.Preset → Option PowerHouse.Png)
        (decode : PowerHouse.Png → Option (Nat × Nat))
        (fig : PowerHouse.Figure) (i : Nat)
        (hi : i < PowerHouse.rasterPresets.length) (png : PowerHouse.Png)
        (w h : Nat),
      (∀ j (hj : j < i),
        toImage fig (PowerHouse.rasterPresets.get ⟨j, hj.trans hi⟩) = none) →
      toImage fig (PowerHouse.rasterPresets.get ⟨i, hi⟩) = some png →
      decode png = some (w, h) →
      PowerHouse.rasterizeFig toImage decode fig = .ok (some (w, h, png))) ∧
    (∀ (toImage : PowerHouse.Figure → PowerHouse.Preset → Option PowerHouse.Png)
        (decode : PowerHouse.Png → Option (Nat × Nat))
        (figs : List PowerHouse.Figure) (cards : List PowerHouse.CardGroup),
      (∀ f ∈ figs, PowerHouse.rasterizeFig toImage decode f ≠ .error ()) →
      (∃ page, PowerHouse.buildSectionPdf toImage decode figs cards = .ok page) ∧
        PowerHouse.collectImages toImage decode figs =
          .ok (figs.filterMap fun f =>
            PowerHouse.okImage (PowerHouse.rasterizeFig toImage decode f))) ∧
    (∀ (toImage : PowerHouse.Figure → PowerHouse.Preset → Option PowerHouse.Png)
        (decode : PowerHouse.Png → Option (Nat × Nat))
        (figs : List PowerHouse.Figure) (cards : List PowerHouse.CardGroup)
        (fig : PowerHouse.Figure), fig ∈ figs →
      (∀ p ∈ PowerHouse.rasterPresets, toImage fig p = none) →
      PowerHouse.buildSectionPdf toImage decode figs cards = .error ()) := by
  refine ⟨?_, ?_, ?_⟩
  · intro toImage decode fig i hi png w h hfail hsucc hdec
    rw [PowerHouse.rasterizeFig_eq_firstHit,
      PowerHouse.firstHit_of_first_success toImage fig
        PowerHouse.rasterPresets i hi png hfail hsucc]
    simp [PowerHouse.decodeStage, hdec]
  · intro toImage decode figs cards h
    exact ⟨PowerHouse.buildSectionPdf_ok_of_no_abort toImage decode figs cards h,
      PowerHouse.collectImages_ok toImage decode figs h⟩
  · intro toImage decode figs cards fig hmem hall
    have herr := PowerHouse.rasterizeFig_error_of_all_fail toImage decode fig hall
    have hcol := PowerHouse.collectImages_error toImage decode figs fig hmem herr
    have hne : figs.isEmpty = false := by
      cases figs with
      | nil => simp at hmem
      | cons a as => rfl
    unfold PowerHouse.buildSectionPdf
    rw [hne, hcol]
    simp

/-- C7 witness: with the first two presets failing and the third
succeeding, the embedded image comes from the third preset; and a chart
whose bytes never decode is skipped alone, the page still being produced
from the remaining chart. -/
theorem claim_C7_raster_fallback_chain_witness :
    PowerHouse.rasterizeFig c7ToImageThird c7Decode c7FigGood =
      .ok (some (40, 20, 3)) ∧
    (∃ page, PowerHouse.buildSectionPdf c7ToImageSkip c7Decode
        [c7FigBad, c7FigGood] [] = .ok page) ∧
    PowerHouse.collectImages c7ToImageSkip c7Decode [c7FigBad, c7FigGood] =
      .ok ([c7FigBad, c7FigGood].filterMap fun f =>
        PowerHouse.okImage (PowerHouse.rasterizeFig c7ToImageSkip c7Decode f)) := by
  have hskip : ∀ f ∈ [c7FigBad, c7FigGood],
      PowerHouse.rasterizeFig c7ToImageSkip c7Decode f ≠ .error () := by
    intro f hf
    rcases List.mem_cons.mp hf with h | h
    · subst h
      intro hcontra
      have hval : PowerHouse.rasterizeFig c7ToImageSkip c7Decode c7FigBad =
          .ok none := rfl
      rw [hval] at hcontra
      exact Except.noConfusion hcontra
    · rcases List.mem_singleton.mp h with rfl
      intro hcontra
      have hval : PowerHouse.rasterizeFig c7ToImageSkip c7Decode c7FigGood =
          .ok (some (40, 20, 3)) := rfl
      rw [hval] at hcontra
      exact Except.noConfusion hcontra
  have hmain := claim_C7_raster_fallback_chain
  refine ⟨?_, (hmain.2.1 c7ToImageSkip c7Decode [c7FigBad, c7FigGood] [] hskip).1,
    (hmain.2.1 c7ToImageSkip c7Decode [c7FigBad, c7FigGood] [] hskip).2⟩
  exact hmain.1 c7ToImageThird c7Decode c7FigGood 2 (by decide) 3 40 20
    (by intro j hj
        interval_cases j <;> rfl)
    rfl rfl

/-- C7 counterexample: a chart for which every rasterization preset fails
makes the whole `build_section_pdf` call raise (the final scale-3
`pio.to_image` call is not inside any try), instead of skipping that chart
and producing the page from the remaining chart as the claim states. -/
theorem claim_C7_raster_fallback_chain_counterexample :
    PowerHouse.buildSectionPdf c7ToImageAbort c7Decode
      [c7FigBad, c7FigGood] [] = .error () := rfl

/-- Under an oracle whose first preset always succeeds, the per-section
loop of the consolidated report never aborts, and it yields an empty page
list exactly when every listed section has an empty captured figure
list. -/
theorem reportPages_ok
    (toImage : PowerHouse.Figure → PowerHouse.Preset → Option PowerHouse.Png)
    (decode : PowerHouse.Png → Option (Nat × Nat)) (r : PowerHouse.Registry)
    (hgood : ∀ f, toImage f PowerHouse.preset1 ≠ none) :
    ∀ names : List String, ∃ ps,
      PowerHouse.reportPages toImage decode r names = .ok ps ∧
      (ps = [] ↔ ∀ sec ∈ names, r.figs sec = []) := by
  intro names
  induction names with
  | nil => exact ⟨[], rfl, by simp⟩
  | cons sec rest ih =>
    obtain ⟨ps, hps, hiff⟩ := ih
    by_cases hemp : (r.figs sec).isEmpty
    · refine ⟨ps, ?_, ?_⟩
      · rw [PowerHouse.reportPages, if_pos hemp, hps]
      · rw [hiff]
        have hsec : r.figs sec = [] := List.isEmpty_iff.mp hemp
        constructor
        · intro hall s hs
          rcases List.mem_cons.mp hs with h | h
          · subst h; exact hsec
          · exact hall s h
        · intro hall s hs
          exact hall s (List.mem_cons_of_mem sec hs)
    · have hnoerr : ∀ f ∈ r.figs sec,
          PowerHouse.rasterizeFig toImage decode f ≠ .error () :=
        fun f _ =>
          PowerHouse.rasterizeFig_ne_error_of_first toImage decode f (hgood f)
      obtain ⟨page, hpage⟩ := PowerHouse.buildSectionPdf_ok_of_no_abort
        toImage decode (r.figs sec) (r.cards sec) hnoerr
      refine ⟨page :: ps, ?_, ?_⟩
      · rw [PowerHouse.reportPages, if_neg hemp]
        show (match PowerHouse.buildSectionPdfNamed toImage decode r sec with
          | .error _ => Except.error PowerHouse.ReportError.rasterAbort
          | .ok page =>
            match PowerHouse.reportPages toImage decode r rest with
            | .error e => .error e
            | .ok ps => .ok (page :: ps)) = .ok (page :: ps)
        rw [show PowerHouse.buildSectionPdfNamed toImage decode r sec =
            .ok page from hpage, hps]
      · constructor
        · intro h; exact List.noConfusion h
        · intro hall
          exact absurd (List.isEmpty_iff.mpr
            (hall sec (List.mem_cons_self sec rest))) hemp

/-- C8: a single-section bitmap-grid export of a section with zero charts
and zero cards returns a valid near-empty page without raising; the
consolidated all-sections export (under oracles where rasterization
succeeds, so that no unrelated abort interferes) raises an error exactly
when no included section has any captured chart. -/
theorem claim_C8_empty_section_vs_empty_report :
    (∀ (toImage : PowerHouse.Figure → PowerHouse.Preset → Option PowerHouse.Png)
        (decode : PowerHouse.Png → Option (Nat × Nat)),
      PowerHouse.buildSectionPdf toImage decode [] [] =
        .ok { cardGroups := [], grid := none, images := [] }) ∧
    (∀ (toImage : PowerHouse.Figure → PowerHouse.Preset → Option PowerHouse.Png)
        (decode : PowerHouse.Png → Option (Nat × Nat)) (r : PowerHouse.Registry),
      (∀ f, toImage f PowerHouse.preset1 ≠ none) →
      ((∃ e, PowerHouse.buildReportPdfSameStyle toImage decode r = .error e) ↔
        ∀ sec ∈ PowerHouse.sectionOrder, r.figs sec = [])) := by
  constructor
  · intro toImage decode; rfl
  · intro toImage decode r hgood
    obtain ⟨ps, hps, hiff⟩ :=
      reportPages_ok toImage decode r hgood PowerHouse.sectionOrder
    unfold PowerHouse.buildReportPdfSameStyle
    rw [hps]
    cases ps with
    | nil =>
      constructor
      · intro _; exact hiff.mp rfl
      · intro _; exact ⟨.noCharts, rfl⟩
    | cons p ps =>
      constructor
      · rintro ⟨e, he⟩
        exact Except.noConfusion he
      · intro hall
        exact absurd (hiff.mpr hall) (fun h => List.noConfusion h)

/-- C8 witness: the empty single-section export yields the near-empty
page, and on the never-rendered initial registry the consolidated export
does raise. -/
theorem claim_C8_empty_section_vs_empty_report_witness :
    PowerHouse.buildSectionPdf c8ToImage c8Decode [] [] =
      .ok { cardGroups := [], grid := none, images := [] } ∧
    (∃ e, PowerHouse.buildReportPdfSameStyle c8ToImage c8Decode
        PowerHouse.Registry.init = .error e) := by
  refine ⟨claim_C8_empty_section_vs_empty_report.1 c8ToImage c8Decode, ?_⟩
  exact (claim_C8_empty_section_vs_empty_report.2 c8ToImage c8Decode
    PowerHouse.Registry.init
    (fun f h => Option.noConfusion h)).mpr (fun sec _ => rfl)

/-- C3: for a numeric trace with at least one non-missing value, the
narrative sentence is exactly
"name: peak max in month-of-max, lowest min in month-of-min, average avg,
total sum." where max/min are the maximum/minimum over the non-missing
values, the cited months are the (formatted) x labels at the first index
attaining the maximum/minimum, and average/total are computed over the
non-missing values; values with absolute value at least 1000 render with
thousands separators and no decimals while smaller ones render with two
decimals unless whole; and the [10,50,30]-at-[Jan,Feb,Mar] trace yields
the sentence citing peak 50 in (the formatted) Feb and lowest 10 in
(the formatted) Jan. -/
theorem claim_C3_numeric_narrative :
    (∀ (month : String → String) (tr : PowerHouse.Trace) (mx mn : ℚ),
      tr.type ≠ "pie" →
      mx ∈ (tr.ys.map PowerHouse.YVal.toNum).filterMap id →
      (∀ v ∈ (tr.ys.map PowerHouse.YVal.toNum).filterMap id, v ≤ mx) →
      mn ∈ (tr.ys.map PowerHouse.YVal.toNum).filterMap id →
      (∀ v ∈ (tr.ys.map PowerHouse.YVal.toNum).filterMap id, mn ≤ v) →
      PowerHouse.describeTrace month tr =
        PowerHouse.displayName tr ++ ": peak " ++
          PowerHouse.fmtVal (some mx) "" ++ " in " ++
          PowerHouse.monthAt month tr.xs
            (PowerHouse.firstIdxVal (tr.ys.map PowerHouse.YVal.toNum) mx) ++
          ", lowest " ++ PowerHouse.fmtVal (some mn) "" ++ " in " ++
          PowerHouse.monthAt month tr.xs
            (PowerHouse.firstIdxVal (tr.ys.map PowerHouse.YVal.toNum) mn) ++
          ", average " ++
          PowerHouse.fmtVal (some
            (PowerHouse.listSumQ ((tr.ys.map PowerHouse.YVal.toNum).filterMap id) /
              ((((tr.ys.map PowerHouse.YVal.toNum).filterMap id).length : ℚ)))) "" ++
          ", total " ++
          PowerHouse.fmtVal (some
            (PowerHouse.listSumQ ((tr.ys.map PowerHouse.YVal.toNum).filterMap id))) "" ++
          ".") ∧
    (∀ (s : List (Option ℚ)) (v : ℚ) (i : Nat),
      PowerHouse.firstIdxVal s v = some i →
      ∃ h : i < s.length, s.get ⟨i, h⟩ = some v ∧
        ∀ j (hj : j < i), s.get ⟨j, Nat.lt_trans hj h⟩ ≠ some v) ∧
    (∀ v : ℚ, 1000 ≤ |v| →
      PowerHouse.fmtVal (some v) "" = PowerHouse.fmtComma0 v) ∧
    (∀ v : ℚ, |v| < 1000 → PowerHouse.isWholeQ v = true →
      PowerHouse.fmtVal (some v) "" = PowerHouse.fmtComma0 v) ∧
    (∀ v : ℚ, |v| < 1000 → PowerHouse.isWholeQ v = false →
      PowerHouse.fmtVal (some v) "" = PowerHouse.fmt2 v) ∧
    (∀ month : String → String,
      PowerHouse.describeTrace month c3Trace =
        "S" ++ ": peak " ++ "50" ++ " in " ++ month "Feb" ++ ", lowest " ++
          "10" ++ " in " ++ month "Jan" ++ ", average " ++ "30" ++
          ", total " ++ "90" ++ ".") := by
  refine ⟨?_, PowerHouse.firstIdxVal_spec, PowerHouse.fmtVal_ge_1000,
    PowerHouse.fmtVal_small_whole, PowerHouse.fmtVal_small_frac, ?_⟩
  · intro month tr mx mn hpie h1 h2 h3 h4
    exact PowerHouse.describeTrace_numeric month tr hpie mx mn h1 h2 h3 h4
  · intro month
    rw [PowerHouse.describeTrace_numeric month c3Trace (by decide) 50 10
      (by decide) (by decide) (by decide) (by decide)]
    have hfm : (c3Trace.ys.map PowerHouse.YVal.toNum).filterMap id =
        [(10 : ℚ), 50, 30] := rfl
    rw [hfm]
    have havg : PowerHouse.listSumQ [(10 : ℚ), 50, 30] /
        (([(10 : ℚ), 50, 30].length : ℚ)) = 30 := by
      norm_num [PowerHouse.listSumQ]
    have htot : PowerHouse.listSumQ [(10 : ℚ), 50, 30] = 90 := by
      norm_num [PowerHouse.listSumQ]
    rw [havg, htot]
    rfl

/-- C3 witness: the general sentence theorem applied to the concrete
[10,50,30] trace, plus the formatting branches at 1234 and 5/2. -/
theorem claim_C3_numeric_narrative_witness :
    PowerHouse.describeTrace (fun s => s) c3Trace =
      PowerHouse.displayName c3Trace ++ ": peak " ++
        PowerHouse.fmtVal (some 50) "" ++ " in " ++
        PowerHouse.monthAt (fun s => s) c3Trace.xs
          (PowerHouse.firstIdxVal (c3Trace.ys.map PowerHouse.YVal.toNum) 50) ++
        ", lowest " ++ PowerHouse.fmtVal (some 10) "" ++ " in " ++
        PowerHouse.monthAt (fun s => s) c3Trace.xs
          (PowerHouse.firstIdxVal (c3Trace.ys.map PowerHouse.YVal.toNum) 10) ++
        ", average " ++
        PowerHouse.fmtVal (some
          (PowerHouse.listSumQ ((c3Trace.ys.map PowerHouse.YVal.toNum).filterMap id) /
            ((((c3Trace.ys.map PowerHouse.YVal.toNum).filterMap id).length : ℚ)))) "" ++
        ", total " ++
        PowerHouse.fmtVal (some
          (PowerHouse.listSumQ ((c3Trace.ys.map PowerHouse.YVal.toNum).filterMap id))) "" ++
        "." ∧
    PowerHouse.fmtVal (some 1234) "" = PowerHouse.fmtComma0 1234 ∧
    PowerHouse.fmtVal (some (mkRat 5 2)) "" = PowerHouse.fmt2 (mkRat 5 2) := by
  have h := claim_C3_numeric_narrative
  refine ⟨h.1 (fun s => s) c3Trace 50 10 (by decide) (by decide) (by decide)
    (by decide) (by decide), h.2.2.1 1234 (by norm_num),
    h.2.2.2.2.1 (mkRat 5 2)
      (by rw [Rat.mkRat_eq_div, abs_of_nonneg (by norm_num)]; norm_num)
      (by decide)⟩

/-- C9: narrative generation is total and per-trace isolated — the
narrative block of a figure is exactly one sentence per trace (computed
from that trace alone, via `List.map`) plus the fixed stacked-bars note, a
non-pie trace with no usable numeric values yields the neutral
"no numeric values available" sentence rather than failing, and a figure
with no traces yields the no-chart-data bullet; so one trace's content
never affects the sentences of the remaining traces or the rest of the
document. -/
theorem claim_C9_narrative_totality_isolation :
    (∀ (month : String → String) (fig : PowerHouse.Figure),
      fig.traces.length ≠ 0 →
      PowerHouse.docxFigureBullets month fig =
        (fig.traces.map fun tr => "• " ++ PowerHouse.describeTrace month tr) ++
          ["• Where stacked bars are shown, combined monthly totals are labeled on top for quick comparison."]) ∧
    (∀ (month : String → String) (fig : PowerHouse.Figure),
      (PowerHouse.docxFigureBullets month fig).length =
        if fig.traces.length = 0 then 1 else fig.traces.length + 1) ∧
    (∀ (month : String → String) (tr : PowerHouse.Trace),
      tr.type ≠ "pie" → (∀ y ∈ tr.ys, PowerHouse.YVal.toNum y = none) →
      PowerHouse.describeTrace month tr =
        PowerHouse.displayName tr ++ ": no numeric values available.") ∧
    (∀ (month : String → String) (fig : PowerHouse.Figure),
      fig.traces.length = 0 →
      PowerHouse.docxFigureBullets month fig =
        ["• No chart data available for this figure."]) := by
  refine ⟨?_, ?_, ?_, ?_⟩
  · intro month fig h
    rw [PowerHouse.docxFigureBullets, if_neg h]
  · intro month fig
    by_cases h : fig.traces.length = 0
    · rw [PowerHouse.docxFigureBullets, if_pos h, if_pos h]
      rfl
    · rw [PowerHouse.docxFigureBullets, if_neg h, if_neg h]
      simp
  · intro month tr hpie hall
    simp only [PowerHouse.describeTrace]
    rw [if_neg hpie]
    by_cases hlen : tr.ys.length ≠ 0
    · rw [if_pos hlen]
      have hany : (tr.ys.map PowerHouse.YVal.toNum).any (·.isSome) = false := by
        rw [List.any_eq_false]
        intro o ho
        rcases List.mem_map.mp ho with ⟨y, hy, hoy⟩
        rw [← hoy, hall y hy]
        simp
      rw [if_neg (by rw [hany]; exact Bool.false_ne_true)]
    · rw [if_neg hlen]
  · intro month fig h
    rw [PowerHouse.docxFigureBullets, if_pos h]

/-- C9 witness: the isolation equation on a concrete two-trace figure and
the neutral sentence on its no-data trace. -/
theorem claim_C9_narrative_totality_isolation_witness :
    PowerHouse.docxFigureBullets (fun s => s) c9Fig =
      ([c9Trace, c3Trace].map fun tr =>
        "• " ++ PowerHouse.describeTrace (fun s => s) tr) ++
        ["• Where stacked bars are shown, combined monthly totals are labeled on top for quick comparison."] ∧
    PowerHouse.describeTrace (fun s => s) c9Trace =
      PowerHouse.displayName c9Trace ++ ": no numeric values available." ∧
    (PowerHouse.docxFigureBullets (fun s => s) c9Fig).length =
      if c9Fig.traces.length = 0 then 1 else c9Fig.traces.length + 1 := by
  have h := claim_C9_narrative_totality_isolation
  exact ⟨h.1 (fun s => s) c9Fig (by decide),
    h.2.2.1 (fun s => s) c9Trace (by decide) (by decide),
    h.2.1 (fun s => s) c9Fig⟩

/-- C2: the slide deck of a section with N captured charts has exactly
2N+2 slides — a title slide, then per chart (in capture order) one
chart-image slide immediately followed by one explanation slide, then a
conclusion slide; every slide's footer carries its 1-based position over
the up-front total 2N+2, the indices running 1..2N+2 sequentially. -/
theorem claim_C2_deck_structure (figs : List PowerHouse.Figure)
    (titleText : String) :
    (PowerHouse.buildSectionPptBrand figs titleText).length =
      2 * figs.length + 2 ∧
    (∀ i (h : i < (PowerHouse.buildSectionPptBrand figs titleText).length),
      ((PowerHouse.buildSectionPptBrand figs titleText).get ⟨i, h⟩).idx = i + 1 ∧
      ((PowerHouse.buildSectionPptBrand figs titleText).get ⟨i, h⟩).total =
        2 * figs.length + 2) ∧
    (PowerHouse.buildSectionPptBrand figs titleText).head? =
      some { kind := .titleSlide, idx := 1, total := 2 * figs.length + 2 } ∧
    (∀ k (hk : k < figs.length)
      (h1 : 2 * k + 1 < (PowerHouse.buildSectionPptBrand figs titleText).length)
      (h2 : 2 * k + 2 < (PowerHouse.buildSectionPptBrand figs titleText).length),
      ((PowerHouse.buildSectionPptBrand figs titleText).get ⟨2 * k + 1, h1⟩).kind =
        .graphSlide ((figs.get ⟨k, hk⟩).title.getD titleText) ∧
      ((PowerHouse.buildSectionPptBrand figs titleText).get ⟨2 * k + 2, h2⟩).kind =
        .explainSlide ((figs.get ⟨k, hk⟩).title.getD titleText)
          (PowerHouse.figureSummaryPoints (figs.get ⟨k, hk⟩))) ∧
    (PowerHouse.buildSectionPptBrand figs titleText).getLast? =
      some { kind := .conclusionSlide, idx := 2 * figs.length + 2,
             total := 2 * figs.length + 2 } := by
  have htot : 1 + 2 * figs.length + 1 = 2 * figs.length + 2 := by omega
  refine ⟨?_, ?_, ?_, ?_, ?_⟩
  · simp only [PowerHouse.buildSectionPptBrand, List.length_cons,
      PowerHouse.pptSlidesAux_length]
  · intro i h
    match i with
    | 0 => exact ⟨rfl, by simp [PowerHouse.buildSectionPptBrand]; omega⟩
    | Nat.succ j =>
      have hj : j < (PowerHouse.pptSlidesAux titleText
          (1 + 2 * figs.length + 1) figs 2).length := by
        simp only [PowerHouse.buildSectionPptBrand, List.length_cons] at h
        omega
      have hres := PowerHouse.pptSlidesAux_get titleText
        (1 + 2 * figs.length + 1) figs 2 j hj
      have hstep : (PowerHouse.buildSectionPptBrand figs titleText).get
          ⟨Nat.succ j, h⟩ =
          (PowerHouse.pptSlidesAux titleText (1 + 2 * figs.length + 1)
            figs 2).get ⟨j, hj⟩ := rfl
      constructor
      · rw [hstep, hres.1]
        omega
      · rw [hstep, hres.2]
        omega
  · show some _ = some _
    rw [Option.some_inj, PowerHouse.Slide.mk.injEq]
    exact ⟨rfl, rfl, htot⟩
  · intro k hk h1 h2
    have hg1 : 2 * k < (PowerHouse.pptSlidesAux titleText
        (1 + 2 * figs.length + 1) figs 2).length := by
      rw [PowerHouse.pptSlidesAux_length]
      omega
    have hg2 : 2 * k + 1 < (PowerHouse.pptSlidesAux titleText
        (1 + 2 * figs.length + 1) figs 2).length := by
      rw [PowerHouse.pptSlidesAux_length]
      omega
    have hres := PowerHouse.pptSlidesAux_graph_explain titleText
      (1 + 2 * figs.length + 1) figs 2 k hk hg1 hg2
    have hstep1 : (PowerHouse.buildSectionPptBrand figs titleText).get
        ⟨2 * k + 1, h1⟩ =
        (PowerHouse.pptSlidesAux titleText (1 + 2 * figs.length + 1)
          figs 2).get ⟨2 * k, hg1⟩ := rfl
    have hstep2 : (PowerHouse.buildSectionPptBrand figs titleText).get
        ⟨2 * k + 2, h2⟩ =
        (PowerHouse.pptSlidesAux titleText (1 + 2 * figs.length + 1)
          figs 2).get ⟨2 * k + 1, hg2⟩ := rfl
    exact ⟨hstep1 ▸ hres.1, hstep2 ▸ hres.2⟩
  · have hne : PowerHouse.pptSlidesAux titleText (1 + 2 * figs.length + 1)
        figs 2 ≠ [] := by
      intro hcon
      have := PowerHouse.pptSlidesAux_length titleText
        (1 + 2 * figs.length + 1) figs 2
      rw [hcon] at this
      simp at this
    show (_ :: _).getLast? = _
    rw [PowerHouse.getLast?_cons_of_ne_nil _ _ hne,
      PowerHouse.pptSlidesAux_last, Option.some_inj,
      PowerHouse.Slide.mk.injEq]
    exact ⟨rfl, by omega, htot⟩

/-- C2 witness: with N = 3 the deck has 2*3+2 = 8 slides, slide 5 carries
footer index 5 over total 8, the deck opens with the title slide and
closes with the conclusion slide, and chart 2's image slide sits at
position 4 (1-based). -/
theorem claim_C2_deck_structure_witness :
    (PowerHouse.buildSectionPptBrand c2Figs "T").length =
      2 * c2Figs.length + 2 ∧
    ((PowerHouse.buildSectionPptBrand c2Figs "T").get ⟨4, by decide⟩).idx =
      4 + 1 ∧
    ((PowerHouse.buildSectionPptBrand c2Figs "T").get ⟨4, by decide⟩).total =
      2 * c2Figs.length + 2 ∧
    (PowerHouse.buildSectionPptBrand c2Figs "T").head? =
      some { kind := .titleSlide, idx := 1, total := 2 * c2Figs.length + 2 } ∧
    ((PowerHouse.buildSectionPptBrand c2Figs "T").get ⟨2 * 1 + 1, by decide⟩).kind =
      .graphSlide ((c2Figs.get ⟨1, by decide⟩).title.getD "T") ∧
    (PowerHouse.buildSectionPptBrand c2Figs "T").getLast? =
      some { kind := .conclusionSlide, idx := 2 * c2Figs.length + 2,
             total := 2 * c2Figs.length + 2 } := by
  obtain ⟨hlen, hidx, hhead, hge, hlast⟩ := claim_C2_deck_structure c2Figs "T"
  exact ⟨hlen, (hidx 4 (by decide)).1, (hidx 4 (by decide)).2, hhead,
    (hge 1 (by decide) (by decide) (by decide)).1, hlast⟩

/-- C6: each trace whose numeric history survives with at least two points
is summarized on the explanation slide as
"name: latest v (Δ delta); avg v, range min–max." with the delta the
difference of the trace's last two numeric points; the rendered bullet
list is truncated to at most 14 entries; and when a chart yields fewer
than two bullets the no-significant-variability filler is appended. -/
theorem claim_C6_explain_slide_bullets :
    (∀ (tr : PowerHouse.Trace) (pre : List ℚ) (a b : ℚ),
      PowerHouse.finiteYs tr.ys = pre ++ [a, b] →
      PowerHouse.traceBullet tr =
        (if tr.name = "" then "Series" else tr.name) ++ ": latest " ++
          PowerHouse.fmtComma0 b ++ " (Δ " ++
          PowerHouse.fmtPlusComma0 (b - a) ++ "); avg " ++
          PowerHouse.fmtComma0 (PowerHouse.listSumQ (pre ++ [a, b]) /
            (((pre ++ [a, b]).length : ℚ))) ++ ", range " ++
          PowerHouse.fmtComma0 ((PowerHouse.listMinQ (pre ++ [a, b])).getD 0) ++
          "–" ++
          PowerHouse.fmtComma0 ((PowerHouse.listMaxQ (pre ++ [a, b])).getD 0) ++
          ".") ∧
    (∀ bullets : List String,
      (PowerHouse.explainSlideBullets bullets).length ≤ 14) ∧
    (∀ bullets : List String, bullets ≠ [] →
      PowerHouse.explainSlideBullets bullets =
        (bullets.take 14).map fun t => "• " ++ t) ∧
    (∀ fig : PowerHouse.Figure, (PowerHouse.rawSummaryPoints fig).length < 2 →
      PowerHouse.figureSummaryPoints fig = PowerHouse.rawSummaryPoints fig ++
        ["No significant variability detected; continue monitoring."]) := by
  refine ⟨?_, ?_, ?_, ?_⟩
  · intro tr pre a b hy
    have hlen : (pre ++ [a, b]).length = pre.length + 2 := by simp
    have hne : (pre ++ [a, b]).length ≠ 0 := by omega
    have hgt : 1 < (pre ++ [a, b]).length := by omega
    have hd1 : (pre ++ [a, b]).getD ((pre ++ [a, b]).length - 1) 0 = b := by
      have e : (pre ++ [a, b]).length - 1 = pre.length + 1 := by omega
      rw [e]
      exact (PowerHouse.getD_append_pair pre a b).1
    have hd2 : (pre ++ [a, b]).getD ((pre ++ [a, b]).length - 2) 0 = a := by
      have e : (pre ++ [a, b]).length - 2 = pre.length := by omega
      rw [e]
      exact (PowerHouse.getD_append_pair pre a b).2
    simp only [PowerHouse.traceBullet, hy]
    rw [if_pos hne, if_pos hgt, hd1, hd2]
  · intro bullets
    simp only [PowerHouse.explainSlideBullets, List.length_map]
    exact le_trans (List.length_take_le 14 _) (le_refl 14)
  · intro bullets h
    have hlen : ¬ bullets.length = 0 := by
      simpa [List.length_eq_zero] using h
    simp only [PowerHouse.explainSlideBullets]
    rw [if_neg hlen]
  · intro fig h
    simp only [PowerHouse.figureSummaryPoints]
    rw [if_pos h]

/-- C6 witness: the bullet of the [10,50,30] trace carries Δ = 30-50, the
cap theorem at a concrete list, the bullet-glyph rendering at a singleton
list, and the filler on a figure with a title and no traces. -/
theorem claim_C6_explain_slide_bullets_witness :
    PowerHouse.traceBullet c3Trace =
      (if c3Trace.name = "" then "Series" else c3Trace.name) ++ ": latest " ++
        PowerHouse.fmtComma0 30 ++ " (Δ " ++
        PowerHouse.fmtPlusComma0 (30 - 50) ++ "); avg " ++
        PowerHouse.fmtComma0 (PowerHouse.listSumQ ([10] ++ [50, 30]) /
          ((([10] ++ [(50 : ℚ), 30]).length : ℚ))) ++ ", range " ++
        PowerHouse.fmtComma0 ((PowerHouse.listMinQ ([10] ++ [50, 30])).getD 0) ++
        "–" ++
        PowerHouse.fmtComma0 ((PowerHouse.listMaxQ ([10] ++ [50, 30])).getD 0) ++
        "." ∧
    (PowerHouse.explainSlideBullets ["only one"]).length ≤ 14 ∧
    PowerHouse.explainSlideBullets ["only one"] =
      (["only one"].take 14).map (fun t => "• " ++ t) ∧
    PowerHouse.figureSummaryPoints { title := some "T", traces := [] } =
      PowerHouse.rawSummaryPoints { title := some "T", traces := [] } ++
        ["No significant variability detected; continue monitoring."] := by
  obtain ⟨hb, hcap, hglyph, hfill⟩ := claim_C6_explain_slide_bullets
  exact ⟨hb c3Trace [10] 50 30 rfl, hcap ["only one"],
    hglyph ["only one"] (by decide),
    hfill { title := some "T", traces := [] } (by decide)⟩
